import Mathlib

/-!
Verification of the per-guild playback scheduler, persistence adapters and
lyrics pipeline of the tansenbot repository.

The Python sources are shallowly embedded:

* `database.py` — the sqlite store is modelled as two key-addressed maps
  (guild id to queue row, guild id to settings row).  Every write in the
  source is an upsert of a whole row, so a map from `String` to `Option` row
  is a faithful picture of the table.  Python's `json` module is modelled
  abstractly by `DBText`: `json.dumps` always yields well-formed text and
  `json.loads` inverts it, while `DBText.malformed` stands for any stored
  text that `json.loads` rejects.
* `tansenmain.py` — the queue helpers and the locked section of
  `play_next_in_guild` become pure state-passing functions; the stream
  resolver (`make_discord_audio_source` followed by `vc.play`) is an oracle
  `resolve : JValue → Bool`, and the `bot.loop.create_task` retry after a
  resolution failure becomes the `AdvanceOutcome.retry` outcome consumed by
  the bounded iterator `play_until`.
* `lyrics.py` — the string pipeline (`clean_song_title`,
  `_looks_like_non_song`, `_select_best_genius_result`,
  `get_lyrics_from_genius`) is embedded at character level, with Python
  `re` semantics (leftmost match, greedy `.*`, word boundaries) implemented
  directly; page fetching plus extraction plus validation is an oracle
  `extract : String → Option String`.
* The per-guild `asyncio.Lock` of `play_next_in_guild` is modelled by an
  interleaving semantics: two advance tasks run the locked section at the
  granularity of the individual database operations, with an explicit
  acquire/release of the shared lock bit.

Floats in the source (`volume_level`) are modelled as rationals: the only
operations performed on them are comparisons against the exact constants
0, 2 and the exact steps 0.05, for which rational arithmetic agrees with
the clamp semantics of the source.
-/

namespace Tansen

/-- JSON values, the shape of the Python objects (song dicts, queues) that
`tansenmain.py` passes to the `database.py` adapters. -/
inductive JValue where
  | null
  | bool (b : Bool)
  | num (q : ℚ)
  | str (s : String)
  | arr (items : List JValue)
  | obj (fields : List (String × JValue))

/-- Serialized text stored in a database text column.  Python's `json`
module is modelled abstractly: `fromDumps v` is the well-formed text
produced by `json.dumps` on the value `v`, and `malformed s` is any other
stored text, which `json.loads` rejects. -/
inductive DBText where
  | fromDumps (v : JValue)
  | malformed (s : String)

/-- `json.dumps`: always produces well-formed text. -/
def json_dumps (v : JValue) : DBText := .fromDumps v

/-- `json.loads`: inverts `json.dumps`; raises (here: `none`) on malformed
text. -/
def json_loads : DBText → Option JValue
  | .fromDumps v => some v
  | .malformed _ => none

/-- Python truthiness of stored text: `json.dumps` never returns the empty
string, so dumped text is always truthy; malformed text is truthy unless
empty. -/
def DBText.isTruthy : DBText → Bool
  | .fromDumps _ => true
  | .malformed s => s != ""

/-- One row of the `guild_settings` table of `database.py`: volume as a
rational, the loop flag as the integer `int(bool(...))` written by
`save_guild_settings`, and the two serialized song columns. -/
structure SettingsRow where
  volume_level : ℚ
  is_looping : Int
  last_played : Option DBText
  previous_played : Option DBText

/-- The persistent store: the `queues` and `guild_settings` tables, keyed by
guild id; `none` is an absent row. -/
structure Store where
  queues : String → Option DBText
  settings : String → Option SettingsRow

/-- A store with no rows at all. -/
def emptyStore : Store := ⟨fun _ => none, fun _ => none⟩

/-- `save_queue` from `database.py`: upserts the guild's row with the JSON
dump of the song list. -/
def save_queue (st : Store) (guild_id : String) (queue : List JValue) : Store :=
  { st with
    queues := fun g => if g = guild_id then some (json_dumps (.arr queue)) else st.queues g }

/-- `load_queue` from `database.py`: a missing row gives `[]`, and a JSON
parse failure (the `except` branch) gives `[]`.  `save_queue` only ever
stores JSON arrays, so the well-formed-non-array case is unreachable. -/
def load_queue (st : Store) (guild_id : String) : List JValue :=
  match st.queues guild_id with
  | none => []
  | some txt =>
    match json_loads txt with
    | some (.arr items) => items
    | some _ => []
    | none => []

/-- `delete_queue` from `database.py`. -/
def delete_queue (st : Store) (guild_id : String) : Store :=
  { st with queues := fun g => if g = guild_id then none else st.queues g }

/-- The dictionary returned by `load_guild_settings`. -/
structure GuildSettings where
  volume_level : ℚ
  is_looping : Bool
  last_played : Option JValue
  previous_played : Option JValue

/-- `save_guild_settings` from `database.py`: upserts the whole row,
storing `float(volume_level)`, `int(bool(is_looping))` and
`json.dumps(song)` (or SQL NULL) for the two song columns. -/
def save_guild_settings (st : Store) (guild_id : String) (volume_level : ℚ)
    (is_looping : Bool) (last_played previous_played : Option JValue) : Store :=
  { st with
    settings := fun g =>
      if g = guild_id then
        some { volume_level := volume_level
               is_looping := if is_looping then 1 else 0
               last_played := last_played.map json_dumps
               previous_played := previous_played.map json_dumps }
      else st.settings g }

/-- The `json.loads(column) if column else None` pattern of
`load_guild_settings`, wrapped in try/except: a NULL or falsy column gives
`None`, and a parse failure also gives `None`. -/
def parseStoredSong : Option DBText → Option JValue
  | none => none
  | some txt => if txt.isTruthy then json_loads txt else none

/-- `load_guild_settings` from `database.py`: a missing row returns the
defaults volume 1.0, loop off, no last/previous song; a present row is
decoded column by column. -/
def load_guild_settings (st : Store) (guild_id : String) : GuildSettings :=
  match st.settings guild_id with
  | none =>
    { volume_level := 1, is_looping := false, last_played := none, previous_played := none }
  | some row =>
    { volume_level := row.volume_level
      is_looping := row.is_looping != 0
      last_played := parseStoredSong row.last_played
      previous_played := parseStoredSong row.previous_played }

/-! Queue helpers and the advance routine of `tansenmain.py`. -/

/-- The `s.setdefault("requester", requester_name)` call of
`add_song_to_queue`: adds the key at the end of the dict if absent.  The
source only ever applies it to song dicts. -/
def setdefaultRequester (requester_name : String) : JValue → JValue
  | .obj fields =>
    if fields.any (fun kv => kv.1 == "requester") then .obj fields
    else .obj (fields ++ [("requester", .str requester_name)])
  | v => v

/-- `add_song_to_queue` from `tansenmain.py`: wraps a single dict into a
one-element list, defaults each song's requester, loads the guild queue,
prepends (`play_now`) or appends the new songs, saves, and returns the
number of songs added. -/
def add_song_to_queue (st : Store) (guild_id : String) (song_data : JValue ⊕ List JValue)
    (requester_name : String) (play_now : Bool) : Store × Nat :=
  let songs :=
    match song_data with
    | .inl d => [d]
    | .inr l => l
  let songs := songs.map (setdefaultRequester requester_name)
  let q := load_queue st guild_id
  let q := if play_now then songs ++ q else q ++ songs
  (save_queue st guild_id q, songs.length)

/-- `pop_next_song` from `tansenmain.py`: loads the queue, returns `None`
on an empty queue without writing, otherwise removes the head and saves the
remainder. -/
def pop_next_song (st : Store) (guild_id : String) : Option JValue × Store :=
  match load_queue st guild_id with
  | [] => (none, st)
  | s :: rest => (some s, save_queue st guild_id rest)

/-- The per-guild runtime state of `tansenmain.py`: the persistent store
plus this guild's entry of the in-memory `now_playing` map. -/
structure GuildState where
  store : Store
  now_playing : Option JValue

/-- `set_now_playing` from `tansenmain.py`: writes the in-memory map entry
and persists the last-played / previous-played swap (the new song becomes
`last_played`, the old `last_played` becomes `previous_played`). -/
def set_now_playing (gs : GuildState) (guild_id : String) (song : Option JValue) : GuildState :=
  let settings := load_guild_settings gs.store guild_id
  let prev := settings.last_played
  { store := save_guild_settings gs.store guild_id settings.volume_level settings.is_looping
      song prev
    now_playing := song }

/-- How one invocation of `play_next_in_guild` ends: the queue was empty
(`idle`, the idle timer is armed), no voice client was present (`noVoice`),
the stream resolved and playback started (`playing`, the completion
callback is registered), or resolution / `vc.play` failed and a retry task
was scheduled (`retry`). -/
inductive AdvanceOutcome where
  | idle
  | noVoice
  | playing (song : JValue)
  | retry

/-- One invocation of `play_next_in_guild` from `tansenmain.py`.  Inside
the guild lock: read the loop flag, pop the queue head (empty queue: clear
now-playing and go idle), re-append the popped song to the tail when loop
is on, set now-playing.  Outside the lock: `resolve` is the oracle for
`make_discord_audio_source` and `vc.play` succeeding; a failure schedules
a retry of the whole routine. -/
def play_next_step (resolve : JValue → Bool) (has_vc : Bool) (guild_id : String)
    (gs : GuildState) : GuildState × AdvanceOutcome :=
  let settings := load_guild_settings gs.store guild_id
  let looping := settings.is_looping
  match pop_next_song gs.store guild_id with
  | (none, st) =>
    (set_now_playing { gs with store := st } guild_id none, .idle)
  | (some song, st) =>
    let st := if looping then save_queue st guild_id (load_queue st guild_id ++ [song]) else st
    let gs := set_now_playing { gs with store := st } guild_id (some song)
    (gs, if !has_vc then .noVoice else if resolve song then .playing song else .retry)

/-- The state reached after one invocation of `play_next_in_guild`. -/
def advance1 (resolve : JValue → Bool) (has_vc : Bool) (guild_id : String)
    (gs : GuildState) : GuildState :=
  (play_next_step resolve has_vc guild_id gs).1

/-- `n` successive invocations of `play_next_in_guild`. -/
def advanceIter (resolve : JValue → Bool) (has_vc : Bool) (guild_id : String)
    (n : Nat) (gs : GuildState) : GuildState :=
  (advance1 resolve has_vc guild_id)^[n] gs

/-- The retry chain spawned by resolution failures: keep re-invoking
`play_next_in_guild` while it ends in `retry`, with fuel bounding the
number of invocations observed; exhausted fuel reports `retry` (the chain
was still running). -/
def play_until (resolve : JValue → Bool) (has_vc : Bool) (guild_id : String) :
    Nat → GuildState → GuildState × AdvanceOutcome
  | 0, gs => (gs, .retry)
  | fuel + 1, gs =>
    match play_next_step resolve has_vc guild_id gs with
    | (gs2, .retry) => play_until resolve has_vc guild_id fuel gs2
    | r => r

/-! The operations of `tansenmain.py` that write the guild settings row:
the `/volume` command, the `-5%` / `+5%` buttons, the loop toggles
(button and `/loop` command share the same body), and `set_now_playing`.
These are the only `save_guild_settings` call sites in the repository. -/

/-- A settings-writing operation of `tansenmain.py`. -/
inductive SettingsOp where
  | volumeCmd (level : Int)
  | volDown
  | volUp
  | loopToggle
  | setNow (song : Option JValue)

/-- Apply one settings-writing operation to the store, exactly as the
corresponding handler does: `volumeCmd` rejects levels outside 0..200 and
otherwise stores `level / 100`; the buttons clamp with
`max(0.0, v - 0.05)` / `min(2.0, v + 0.05)`; the loop toggle and
`set_now_playing` pass the loaded volume through unchanged. -/
def apply_settings_op (st : Store) (guild_id : String) : SettingsOp → Store
  | .volumeCmd level =>
    if level < 0 ∨ level > 200 then st
    else
      let s := load_guild_settings st guild_id
      save_guild_settings st guild_id ((level : ℚ) / 100) s.is_looping
        s.last_played s.previous_played
  | .volDown =>
    let s := load_guild_settings st guild_id
    save_guild_settings st guild_id (max 0 (s.volume_level - 0.05)) s.is_looping
      s.last_played s.previous_played
  | .volUp =>
    let s := load_guild_settings st guild_id
    save_guild_settings st guild_id (min 2 (s.volume_level + 0.05)) s.is_looping
      s.last_played s.previous_played
  | .loopToggle =>
    let s := load_guild_settings st guild_id
    save_guild_settings st guild_id s.volume_level (!s.is_looping)
      s.last_played s.previous_played
  | .setNow song =>
    let s := load_guild_settings st guild_id
    save_guild_settings st guild_id s.volume_level s.is_looping song s.last_played

/-- A sequence of settings-writing operations, each aimed at some guild. -/
def apply_settings_ops (st : Store) : List (String × SettingsOp) → Store
  | [] => st
  | (g, op) :: rest => apply_settings_ops (apply_settings_op st g op) rest

/-! Round-trip lemmas for the store adapters. -/

theorem load_save_queue_same (st : Store) (g : String) (q : List JValue) :
    load_queue (save_queue st g q) g = q := by
  simp [load_queue, save_queue, json_dumps, json_loads]

theorem load_save_queue_other (st : Store) (g g2 : String) (q : List JValue) (h : g2 ≠ g) :
    load_queue (save_queue st g q) g2 = load_queue st g2 := by
  simp [load_queue, save_queue, h]

theorem load_settings_save_queue (st : Store) (g g2 : String) (q : List JValue) :
    load_guild_settings (save_queue st g q) g2 = load_guild_settings st g2 := by
  simp [load_guild_settings, save_queue]

theorem load_queue_save_settings (st : Store) (g g2 : String) (v : ℚ) (l : Bool)
    (lp pp : Option JValue) :
    load_queue (save_guild_settings st g v l lp pp) g2 = load_queue st g2 := by
  simp [load_queue, save_guild_settings]

theorem parseStoredSong_dumps (s : Option JValue) :
    parseStoredSong (s.map json_dumps) = s := by
  cases s <;> rfl

theorem load_save_settings_same (st : Store) (g : String) (v : ℚ) (l : Bool)
    (lp pp : Option JValue) :
    load_guild_settings (save_guild_settings st g v l lp pp) g =
      { volume_level := v, is_looping := l, last_played := lp, previous_played := pp } := by
  simp only [load_guild_settings, save_guild_settings, if_pos rfl]
  cases l <;> simp [parseStoredSong_dumps]

theorem load_save_settings_other (st : Store) (g g2 : String) (v : ℚ) (l : Bool)
    (lp pp : Option JValue) (h : g2 ≠ g) :
    load_guild_settings (save_guild_settings st g v l lp pp) g2 =
      load_guild_settings st g2 := by
  simp [load_guild_settings, save_guild_settings, h]

/-! The string pipeline of `lyrics.py`, embedded at character level with
Python `re` semantics: leftmost match, greedy `.*` (which never crosses a
newline), alternatives tried left to right, `re.IGNORECASE` via
lowercasing. -/

/-- Case-insensitive prefix test: `pat` is given lowercase and compared
against the lowercased head of `s`. -/
def isPrefixCI (pat : List Char) (s : List Char) : Bool :=
  match pat, s with
  | [], _ => true
  | _ :: _, [] => false
  | p :: ps, c :: cs => p == c.toLower && isPrefixCI ps cs

/-- Case-insensitive substring test (`pat` given lowercase). -/
def containsCI (pat : List Char) : List Char → Bool
  | [] => isPrefixCI pat []
  | c :: cs => isPrefixCI pat (c :: cs) || containsCI pat cs

/-- Exact substring test (Python's `pat in s`). -/
def containsSeq (pat : List Char) : List Char → Bool
  | [] => pat.isPrefixOf []
  | c :: cs => pat.isPrefixOf (c :: cs) || containsSeq pat cs

/-- Greedy close of `\(.*KEY.*\)` at a position: the largest index `j`
into `rest` such that `rest[j]` is the closing character, everything
before it is newline-free (`.` does not match a newline) and contains the
key case-insensitively.  Returns the index of the closing character. -/
def closeMatchIdx (key : List Char) (closeC : Char) (rest : List Char) : Option Nat :=
  (List.range rest.length).reverse.find? (fun j =>
    rest.getD j (' ') == closeC &&
    !((rest.take j).contains ('\n')) &&
    containsCI key (rest.take j))

/-- Helper for `reSubEnclosed`, structurally recursive on a fuel that
starts at the string length (every step consumes at least one character,
so the fuel never runs out). -/
def reSubEnclosedAux (openC closeC : Char) (key : List Char) : Nat → List Char → List Char
  | 0, _ => []
  | _ + 1, [] => []
  | fuel + 1, c :: rest =>
    if c == openC then
      match closeMatchIdx key closeC rest with
      | some j => reSubEnclosedAux openC closeC key fuel (rest.drop (j + 1))
      | none => c :: reSubEnclosedAux openC closeC key fuel rest
    else c :: reSubEnclosedAux openC closeC key fuel rest

/-- `re.sub` of a pattern `OPEN .* KEY .* CLOSE` (IGNORECASE) with the
empty string: scan left to right, and on each occurrence of the opening
character try the greedy enclosed match, dropping it when found. -/
def reSubEnclosed (openC closeC : Char) (key : List Char) (s : List Char) : List Char :=
  reSubEnclosedAux openC closeC key s.length s

/-- The alternatives of the noise pattern
`official audio|official video|lyrics|mv|hd|4k`, in source order (Python
alternation tries them left to right). -/
def noiseAlternatives : List (List Char) :=
  [("official audio").toList, ("official video").toList, ("lyrics").toList,
   ("mv").toList, ("hd").toList, ("4k").toList]

/-- Helper for `reSubNoise`, fuel-structural like `reSubEnclosedAux`.
Every alternative is non-empty, so dropping `p.length` characters from
`c :: rest` equals dropping `p.length - 1` from `rest`. -/
def reSubNoiseAux : Nat → List Char → List Char
  | 0, _ => []
  | _ + 1, [] => []
  | fuel + 1, c :: rest =>
    match noiseAlternatives.find? (fun p => isPrefixCI p (c :: rest)) with
    | some p => reSubNoiseAux fuel (rest.drop (p.length - 1))
    | none => c :: reSubNoiseAux fuel rest

/-- `re.sub` of the noise alternation (IGNORECASE) with the empty
string. -/
def reSubNoise (s : List Char) : List Char :=
  reSubNoiseAux s.length s

/-- Helper for `reSubFt`, fuel-structural like `reSubEnclosedAux`. -/
def reSubFtAux : Nat → List Char → List Char
  | 0, _ => []
  | _ + 1, [] => []
  | fuel + 1, c :: rest =>
    if isPrefixCI (("ft.").toList) (c :: rest) then
      ("feat.").toList ++ reSubFtAux fuel (rest.drop 2)
    else c :: reSubFtAux fuel rest

/-- `re.sub(r"ft\.", "feat.", s, flags=IGNORECASE)`. -/
def reSubFt (s : List Char) : List Char :=
  reSubFtAux s.length s

/-- The characters Python's `\s` (and `str.strip()`) treat as whitespace,
for the ASCII titles at hand. -/
def isPySpace (c : Char) : Bool :=
  c == (' ') || c == ('\t') || c == ('\n') || c == ('\r') ||
  c == ('\x0b') || c == ('\x0c')

/-- Helper for `collapseSpaces`: the flag records whether the previous
character was whitespace (so the current run has already emitted its single
space). -/
def collapseSpacesAux : Bool → List Char → List Char
  | _, [] => []
  | inRun, c :: rest =>
    if isPySpace c then
      if inRun then collapseSpacesAux true rest
      else (' ') :: collapseSpacesAux true rest
    else c :: collapseSpacesAux false rest

/-- `re.sub(r"\s+", " ", s)`: every maximal whitespace run becomes a single
space. -/
def collapseSpaces (s : List Char) : List Char :=
  collapseSpacesAux false s

/-- Python `str.strip()`. -/
def pyStrip (s : List Char) : List Char :=
  ((s.dropWhile isPySpace).reverse.dropWhile isPySpace).reverse

/-- `clean_song_title` from `lyrics.py`: the five substitutions in source
order — `\(.*official.*\)`, `\[.*official.*\]`, the noise alternation,
`ft.` to `feat.`, whitespace collapse — followed by `strip()`.  An empty
title (the only falsy `str`) is returned unchanged. -/
def clean_song_title (title : String) : String :=
  if title = "" then title
  else
    let s := title.toList
    let s := reSubEnclosed ('(') (')') (("official").toList) s
    let s := reSubEnclosed ('[') (']') (("official").toList) s
    let s := reSubNoise s
    let s := reSubFt s
    let s := pyStrip (collapseSpaces s)
    String.mk s

/-! The Genius candidate selection and fallback pipeline of `lyrics.py`.
A search hit is a dict with a `type` key and a `result` dict holding
`url`, `title` and the primary artist's `name`; the source reads every
field through `.get(..) or` the empty string, so missing keys behave as
empty strings and plain string fields are a faithful picture. -/

/-- The `result` object of a Genius search hit. -/
structure GeniusResult where
  url : String
  title : String
  primary_artist_name : String
deriving DecidableEq, BEq

/-- A Genius search hit. -/
structure GeniusHit where
  type : String
  result : GeniusResult
deriving DecidableEq, BEq

/-- Lowercase a Python string (`.lower()`), as a character list. -/
def pyLower (s : String) : List Char :=
  s.toList.map Char.toLower

/-- Python's `\w`. -/
def isWordChar (c : Char) : Bool :=
  c.isAlphanum || c == ('_')

/-- `re.search` of a literal word with a `\b` before it (and, when
`needRightB`, after it) in an already-lowercased string. -/
def findWordB (w : List Char) (needRightB : Bool) (s : List Char) : Bool :=
  (List.range (s.length + 1)).any (fun i =>
    w.isPrefixOf (s.drop i) &&
    (i == 0 || !isWordChar (s.getD (i - 1) (' '))) &&
    (!needRightB || (i + w.length == s.length || !isWordChar (s.getD (i + w.length) (' ')))))

/-- The `_REJECT_KEYWORDS` scan of `_looks_like_non_song`: the ten patterns
of `lyrics.py` tried on a lowercased string.  `\brelease dates?\b` is the
disjunction of its two expansions; `\bannounc` has no closing boundary. -/
def rejectKeywordHit (s : List Char) : Bool :=
  findWordB (("album").toList) true s ||
  findWordB (("release").toList) true s ||
  findWordB (("tracklist").toList) true s ||
  findWordB (("calendar").toList) true s ||
  findWordB (("release date").toList) true s ||
  findWordB (("release dates").toList) true s ||
  findWordB (("announc").toList) false s ||
  findWordB (("news").toList) true s ||
  findWordB (("article").toList) true s ||
  findWordB (("interview").toList) true s ||
  findWordB (("credits").toList) true s

/-- `_looks_like_non_song` from `lyrics.py`: keyword scan over the
lowercased URL and title, then the three URL substring checks. -/
def looks_like_non_song (url title : String) : Bool :=
  let u := pyLower url
  let t := pyLower title
  rejectKeywordHit u || rejectKeywordHit t ||
  containsSeq (("/albums/").toList) u ||
  containsSeq (("/releases/").toList) u ||
  containsSeq (("/artists/").toList) u

/-- The `score` closure inside `_select_best_genius_result`: `-lyrics` in
the URL +100, hit typed `song` +20, artist substring of primary artist +50,
title substring +30, and an original-ordering tiebreak `max(0, 5 - idx)`
(`hits.index(h)` finds the first equal element; `h` is always a member
here, the `else 10` branch mirrors the source). -/
def select_score (hits : List GeniusHit) (artist title : List Char) (h : GeniusHit) : Int :=
  let s : Int := 0
  let s := if containsSeq (("-lyrics").toList) (pyLower h.result.url) then s + 100 else s
  let s := if h.type == "song" then s + 20 else s
  let pa := pyLower h.result.primary_artist_name
  let s := if !artist.isEmpty && !pa.isEmpty && containsSeq artist pa then s + 50 else s
  let titleHere := pyLower h.result.title
  let s := if !title.isEmpty && containsSeq title titleHere then s + 30 else s
  let idx : Int := if hits.contains h then (hits.indexOf h : Int) else 10
  s + max 0 (5 - idx)

/-- Python's `max(l, key=score)`: the first element attaining the maximal
score (later elements replace the running best only when strictly
greater). -/
def pyMax (score : GeniusHit → Int) : List GeniusHit → Option GeniusHit
  | [] => none
  | h :: t => some (t.foldl (fun best x => if score x > score best then x else best) h)

/-- `_select_best_genius_result` from `lyrics.py`: filter out hits that
look like non-songs, fall back to the unfiltered list when that removes
everything, then take the score-maximal candidate's `result`. -/
def select_best_genius_result (hits : List GeniusHit) (artist title : String) :
    Option GeniusResult :=
  if hits.isEmpty then none
  else
    let artistL := pyLower artist
    let titleL := pyLower title
    let candidates := hits.filter (fun h => !looks_like_non_song h.result.url h.result.title)
    let candidates := if candidates.isEmpty then hits else candidates
    (pyMax (select_score hits artistL titleL) candidates).map (fun h => h.result)

/-- `_try_result` from `get_lyrics_from_genius`: skip empty or
already-tried URLs, otherwise mark the URL tried and consult the page
oracle (`_fetch_genius_page` + `_extract_from_genius_html` +
`_is_likely_lyrics` combined: `some text` is a validated extraction). -/
def try_result (extract : String → Option String) (tried : List String)
    (res : GeniusResult) : Option String × List String :=
  if res.url == "" || tried.contains res.url then (none, tried)
  else (extract res.url, res.url :: tried)

/-- Try a list of results in order, threading the tried-URL set, stopping
at the first validated extraction. -/
def try_list (extract : String → Option String) :
    List GeniusResult → List String → Option String × List String
  | [], tried => (none, tried)
  | r :: rs, tried =>
    match try_result extract tried r with
    | (some t, tried2) => (some t, tried2)
    | (none, tried2) => try_list extract rs tried2

/-- First occurrence of `" - "` in the query (`query.split(" - ", 1)`). -/
def splitOnDash : List Char → Option (List Char × List Char)
  | [] => none
  | c :: rest =>
    if ((" - ").toList).isPrefixOf (c :: rest) then some ([], rest.drop 2)
    else
      match splitOnDash rest with
      | some (a, b) => some (c :: a, b)
      | none => none

/-- The artist/title split of `get_lyrics_from_genius`: around the first
`" - "` (both parts stripped) when present, otherwise the whole query is
the title. -/
def parseQueryArtistTitle (query : String) : String × String :=
  match splitOnDash query.toList with
  | some (a, t) => (String.mk (pyStrip a), String.mk (pyStrip t))
  | none => ("", query)

/-- `get_lyrics_from_genius` from `lyrics.py`, given the search hits and
the page oracle (token present, cache empty): try the selected best first,
then the first 8 hits reordered to prefer `-lyrics` URLs (Python's stable
sort on a 0/1 key), then the first 12 hits in original order, threading the
tried-URL set throughout. -/
def get_lyrics_from_genius (extract : String → Option String) (query : String)
    (hits : List GeniusHit) : Option String :=
  if query == "" then none
  else if hits.isEmpty then none
  else
    let at2 := parseQueryArtistTitle query
    let best := select_best_genius_result hits at2.1 at2.2
    let r1 :=
      match best with
      | some b => try_result extract [] b
      | none => (none, [])
    match r1 with
    | (some t, _) => some t
    | (none, tried1) =>
      let hasLyricsUrl := fun (h : GeniusHit) =>
        containsSeq (("-lyrics").toList) (pyLower h.result.url)
      let ordered := hits.filter hasLyricsUrl ++ hits.filter (fun h => !hasLyricsUrl h)
      match try_list extract ((ordered.take 8).map (fun h => h.result)) tried1 with
      | (some t, _) => some t
      | (none, tried2) =>
        (try_list extract ((hits.take 12).map (fun h => h.result)) tried2).1

/-! An interleaving model of the locked section of `play_next_in_guild`:
two advance tasks for the same guild run the critical section at the
granularity of the individual database operations (each of which holds the
sqlite `DB_LOCK` and is therefore atomic), with an explicit acquire and
release of the guild's `asyncio.Lock`. -/

/-- State shared between the two advance tasks of one guild: the store,
the in-memory now-playing entry, the guild lock bit, and a ghost counter
of the queue pops that removed a song. -/
structure SharedState where
  store : Store
  now_playing : Option JValue
  lockHeld : Bool
  pops : Nat

/-- One advance task: its program counter through the locked section of
`play_next_in_guild`, and its task-local reads (the loop flag read at the
top, the popped song). -/
structure AdvTask where
  pc : Nat
  looping : Bool
  song : Option JValue

/-- A freshly triggered advance task, about to acquire the lock. -/
def AdvTask.start : AdvTask := ⟨0, false, none⟩

/-- One atomic action of an advance task.  Program counters follow the
source: 0 acquire the guild lock, 1 `load_guild_settings` (read the loop
flag), 2 `pop_next_song` (the ghost pop counter increments exactly when a
song was removed), 3 empty-queue branch (`set_now_playing None`), 4 loop
re-append, 5 `set_now_playing song`, 6 release the lock, 7 done (the
post-lock resolution is outside the claim).  `none` means blocked on the
lock or finished. -/
def task_step (g : String) (sh : SharedState) (t : AdvTask) :
    Option (SharedState × AdvTask) :=
  if t.pc = 0 then
    if sh.lockHeld then none
    else some ({ sh with lockHeld := true }, { t with pc := 1 })
  else if t.pc = 1 then
    some (sh, { t with pc := 2, looping := (load_guild_settings sh.store g).is_looping })
  else if t.pc = 2 then
    match pop_next_song sh.store g with
    | (none, st2) => some ({ sh with store := st2 }, { t with pc := 3, song := none })
    | (some s, st2) =>
      some ({ sh with store := st2, pops := sh.pops + 1 }, { t with pc := 4, song := some s })
  else if t.pc = 3 then
    let gs := set_now_playing ⟨sh.store, sh.now_playing⟩ g none
    some ({ sh with store := gs.store, now_playing := gs.now_playing }, { t with pc := 6 })
  else if t.pc = 4 then
    if t.looping then
      match t.song with
      | some s =>
        some ({ sh with store := save_queue sh.store g (load_queue sh.store g ++ [s]) },
          { t with pc := 5 })
      | none => some (sh, { t with pc := 5 })
    else some (sh, { t with pc := 5 })
  else if t.pc = 5 then
    let gs := set_now_playing ⟨sh.store, sh.now_playing⟩ g t.song
    some ({ sh with store := gs.store, now_playing := gs.now_playing }, { t with pc := 6 })
  else if t.pc = 6 then
    some ({ sh with lockHeld := false }, { t with pc := 7 })
  else none

/-- A configuration of the two concurrent advance tasks. -/
structure SchedConf where
  shared : SharedState
  t1 : AdvTask
  t2 : AdvTask

/-- The scheduler takes any enabled atomic action of either task. -/
inductive SchedStep (g : String) : SchedConf → SchedConf → Prop where
  | left (c : SchedConf) (sh : SharedState) (t : AdvTask)
      (h : task_step g c.shared c.t1 = some (sh, t)) :
      SchedStep g c { shared := sh, t1 := t, t2 := c.t2 }
  | right (c : SchedConf) (sh : SharedState) (t : AdvTask)
      (h : task_step g c.shared c.t2 = some (sh, t)) :
      SchedStep g c { shared := sh, t1 := c.t1, t2 := t }

/-- A task is inside the locked section. -/
def inCrit (t : AdvTask) : Prop := 1 ≤ t.pc ∧ t.pc ≤ 6

/-- Deterministic executor for a concrete schedule (`true` runs task 1,
`false` runs task 2; a blocked or finished task leaves the configuration
unchanged).  Every effective step is a `SchedStep`. -/
def sched_run (g : String) : List Bool → SchedConf → SchedConf
  | [], c => c
  | b :: rest, c =>
    let c2 :=
      if b then
        match task_step g c.shared c.t1 with
        | some (sh, t) => { shared := sh, t1 := t, t2 := c.t2 }
        | none => c
      else
        match task_step g c.shared c.t2 with
        | some (sh, t) => { shared := sh, t1 := c.t1, t2 := t }
        | none => c
    sched_run g rest c2

/-! Claims about the persistence adapters. -/

/-- C4: writing the settings row with `save_guild_settings(guild, 0.7,
true, songA, songB)` and reading it back with `load_guild_settings(guild)`
returns volume 0.7, loop on, last played `songA` and previous played
`songB` — a write-then-read round trip over the settings store, for every
prior store contents and every pair of songs. -/
theorem settings_round_trip (st : Store) (guild : String) (songA songB : JValue) :
    load_guild_settings
        (save_guild_settings st guild 0.7 true (some songA) (some songB)) guild =
      { volume_level := 0.7, is_looping := true,
        last_played := some songA, previous_played := some songB } :=
  load_save_settings_same st guild 0.7 true (some songA) (some songB)

/-- C5: for a guild with no stored record, reads return the defined
defaults and never fail: `load_guild_settings` gives volume 1.0, loop off
and no last/previous song, and `load_queue` gives the empty list. -/
theorem missing_guild_reads_default (st : Store) (guild : String)
    (hs : st.settings guild = none) (hq : st.queues guild = none) :
    load_guild_settings st guild =
      { volume_level := 1, is_looping := false,
        last_played := none, previous_played := none } ∧
    load_queue st guild = [] := by
  constructor
  · simp [load_guild_settings, hs]
  · simp [load_queue, hq]

/-- Witness for C5: the empty store has no record for guild `"g"` and the
reads evaluate to the defaults. -/
theorem missing_guild_reads_default_witness :
    emptyStore.settings ("g") = none ∧ emptyStore.queues ("g") = none ∧
    (load_guild_settings emptyStore ("g") =
      { volume_level := 1, is_looping := false,
        last_played := none, previous_played := none } ∧
     load_queue emptyStore ("g") = []) :=
  ⟨rfl, rfl, missing_guild_reads_default emptyStore ("g") rfl rfl⟩

/-- C10: a guild whose rows exist but hold malformed serialized data
degrades to defaults instead of raising: `load_queue` returns `[]` when
the queue JSON fails to parse, and `load_guild_settings` returns `None`
for a last/previous column whose JSON fails to parse while still returning
the stored volume and loop flag. -/
theorem corrupt_rows_degrade_to_defaults (st : Store) (guild : String) (vol : ℚ)
    (loopInt : Int) (s1 s2 s3 : String)
    (hq : st.queues guild = some (.malformed s1))
    (hs : st.settings guild =
      some ⟨vol, loopInt, some (.malformed s2), some (.malformed s3)⟩) :
    load_queue st guild = [] ∧
    load_guild_settings st guild =
      { volume_level := vol, is_looping := loopInt != 0,
        last_played := none, previous_played := none } := by
  constructor
  · simp [load_queue, hq, json_loads]
  · simp [load_guild_settings, hs, parseStoredSong, json_loads]

/-- A concrete store whose guild `"g"` rows hold text `json.loads`
rejects. -/
def corruptStore : Store :=
  ⟨fun g => if g = "g" then some (.malformed ("not json")) else none,
   fun g =>
     if g = "g" then some ⟨3 / 4, 1, some (.malformed ("oops")), some (.malformed ("zap"))⟩
     else none⟩

/-- Witness for C10 at the concrete corrupted store. -/
theorem corrupt_rows_degrade_witness :
    corruptStore.queues ("g") = some (.malformed ("not json")) ∧
    corruptStore.settings ("g") =
      some ⟨3 / 4, 1, some (.malformed ("oops")), some (.malformed ("zap"))⟩ ∧
    (load_queue corruptStore ("g") = [] ∧
     load_guild_settings corruptStore ("g") =
       { volume_level := 3 / 4, is_looping := (1 : Int) != 0,
         last_played := none, previous_played := none }) :=
  ⟨rfl, rfl,
    corrupt_rows_degrade_to_defaults corruptStore ("g") (3 / 4) 1 ("not json") "oops" "zap" rfl rfl⟩

/-! Claim about enqueue order. -/

theorem load_add_song_append (st : Store) (g : String) (songs : List JValue) (r : String) :
    load_queue (add_song_to_queue st g (.inr songs) r false).1 g =
      load_queue st g ++ songs.map (setdefaultRequester r) := by
  simp [add_song_to_queue, load_save_queue_same]

/-- A sequence of plain (`play_now = False`) enqueue batches, each with its
requester. -/
def enqueue_batches (st : Store) (g : String) : List (List JValue × String) → Store
  | [] => st
  | (songs, r) :: rest =>
    enqueue_batches (add_song_to_queue st g (.inr songs) r false).1 g rest

theorem load_enqueue_batches (g : String) :
    ∀ (batches : List (List JValue × String)) (st : Store),
      load_queue (enqueue_batches st g batches) g =
        load_queue st g ++ (batches.map (fun b => b.1.map (setdefaultRequester b.2))).flatten := by
  intro batches
  induction batches with
  | nil => simp [enqueue_batches]
  | cons b rest ih =>
    intro st
    cases b with
    | mk songs r => simp [enqueue_batches, ih, load_add_song_append]

/-- C2: enqueueing through `add_song_to_queue` is FIFO — any sequence of
plain enqueue batches applied to an initially empty per-guild queue yields
the (requester-defaulted) songs in insertion order — and a `play_now`
enqueue instead prepends its songs to the front of the existing queue. -/
theorem enqueue_fifo_and_play_now (guild : String) :
    (∀ batches : List (List JValue × String),
       load_queue (enqueue_batches emptyStore guild batches) guild =
         (batches.map (fun b => b.1.map (setdefaultRequester b.2))).flatten) ∧
    (∀ (st : Store) (songs : List JValue) (r : String),
       load_queue (add_song_to_queue st guild (.inr songs) r true).1 guild =
         songs.map (setdefaultRequester r) ++ load_queue st guild) := by
  constructor
  · intro batches
    have h := load_enqueue_batches guild batches emptyStore
    simpa [emptyStore, load_queue] using h
  · intro st songs r
    simp [add_song_to_queue, load_save_queue_same]

/-! Claim about the volume range. -/

/-- Every guild's stored volume lies in the closed interval 0 to 2. -/
def VolumeInv (st : Store) : Prop :=
  ∀ g, 0 ≤ (load_guild_settings st g).volume_level ∧
    (load_guild_settings st g).volume_level ≤ 2

theorem volume_inv_step (st : Store) (g : String) (op : SettingsOp)
    (h : VolumeInv st) : VolumeInv (apply_settings_op st g op) := by
  intro g2
  cases op with
  | volumeCmd level =>
    simp only [apply_settings_op]
    split
    · exact h g2
    · rename_i hlev
      push_neg at hlev
      by_cases hg : g2 = g
      · subst hg
        rw [load_save_settings_same]
        refine ⟨div_nonneg ?_ (by norm_num), ?_⟩
        · exact_mod_cast hlev.1
        · rw [div_le_iff₀ (by norm_num : (0 : ℚ) < 100)]
          have : (level : ℚ) ≤ 200 := by exact_mod_cast hlev.2
          linarith
      · rw [load_save_settings_other st g g2 _ _ _ _ hg]
        exact h g2
  | volDown =>
    simp only [apply_settings_op]
    by_cases hg : g2 = g
    · subst hg
      rw [load_save_settings_same]
      have hb := h g2
      exact ⟨le_max_left 0 _, max_le (by norm_num) (by linarith [hb.2])⟩
    · rw [load_save_settings_other st g g2 _ _ _ _ hg]
      exact h g2
  | volUp =>
    simp only [apply_settings_op]
    by_cases hg : g2 = g
    · subst hg
      rw [load_save_settings_same]
      have hb := h g2
      exact ⟨le_min (by norm_num) (by linarith [hb.1]), min_le_left 2 _⟩
    · rw [load_save_settings_other st g g2 _ _ _ _ hg]
      exact h g2
  | loopToggle =>
    simp only [apply_settings_op]
    by_cases hg : g2 = g
    · subst hg
      rw [load_save_settings_same]
      exact h g2
    · rw [load_save_settings_other st g g2 _ _ _ _ hg]
      exact h g2
  | setNow song =>
    simp only [apply_settings_op]
    by_cases hg : g2 = g
    · subst hg
      rw [load_save_settings_same]
      exact h g2
    · rw [load_save_settings_other st g g2 _ _ _ _ hg]
      exact h g2

theorem volume_inv_ops (st : Store) (h : VolumeInv st) :
    ∀ ops : List (String × SettingsOp), VolumeInv (apply_settings_ops st ops) := by
  intro ops
  induction ops generalizing st with
  | nil => exact h
  | cons p rest ih =>
    cases p with
    | mk g op => exact ih (apply_settings_op st g op) (volume_inv_step st g op h)

/-- C9: starting from any store whose volumes all lie in 0 to 2 (the
default 1.0 included), no sequence of the settings-writing operations of
`tansenmain.py` — the range-checked `/volume` command, the clamping
`-5%` / `+5%` buttons, the loop toggles and `set_now_playing` — ever
persists a volume outside the closed interval 0 to 2, for any guild. -/
theorem volume_always_in_range (st : Store) (h : VolumeInv st)
    (ops : List (String × SettingsOp)) (g : String) :
    0 ≤ (load_guild_settings (apply_settings_ops st ops) g).volume_level ∧
    (load_guild_settings (apply_settings_ops st ops) g).volume_level ≤ 2 :=
  volume_inv_ops st h ops g

theorem volumeInv_emptyStore : VolumeInv emptyStore := by
  intro g
  simp [load_guild_settings, emptyStore]

/-- Witness for C9: from the empty store, two volume-up clicks, a rejected
`/volume 250`, and a volume-down click leave guild `"g"` inside the
range. -/
theorem volume_always_in_range_witness :
    0 ≤ (load_guild_settings (apply_settings_ops emptyStore
        [("g", .volUp), ("g", .volUp), ("g", .volumeCmd 250), ("g", .volDown)]) ("g")).volume_level ∧
    (load_guild_settings (apply_settings_ops emptyStore
        [("g", .volUp), ("g", .volUp), ("g", .volumeCmd 250), ("g", .volDown)]) ("g")).volume_level ≤ 2 :=
  volume_always_in_range emptyStore volumeInv_emptyStore
    [("g", .volUp), ("g", .volUp), ("g", .volumeCmd 250), ("g", .volDown)] ("g")

/-! Claim about the loop invariant on a single-song queue. -/

theorem loop_single_song_step (resolve : JValue → Bool) (has_vc : Bool) (g : String)
    (gs : GuildState) (s : JValue)
    (hq : load_queue gs.store g = [s])
    (hl : (load_guild_settings gs.store g).is_looping = true) :
    load_queue (advance1 resolve has_vc g gs).store g = [s] ∧
    (load_guild_settings (advance1 resolve has_vc g gs).store g).is_looping = true ∧
    (advance1 resolve has_vc g gs).now_playing = some s := by
  simp only [advance1, play_next_step, pop_next_song, hq, hl, if_true, set_now_playing,
    load_settings_save_queue, load_save_queue_same, load_queue_save_settings,
    load_save_settings_same, List.nil_append]
  exact ⟨trivial, trivial, trivial⟩

theorem loop_single_song_iter (resolve : JValue → Bool) (has_vc : Bool) (g : String)
    (gs : GuildState) (s : JValue)
    (hq : load_queue gs.store g = [s])
    (hl : (load_guild_settings gs.store g).is_looping = true) :
    ∀ k : Nat,
      load_queue (advanceIter resolve has_vc g k gs).store g = [s] ∧
      (load_guild_settings (advanceIter resolve has_vc g k gs).store g).is_looping = true ∧
      (1 ≤ k → (advanceIter resolve has_vc g k gs).now_playing = some s) := by
  intro k
  induction k with
  | zero => exact ⟨hq, hl, by omega⟩
  | succ n ih =>
    have hit : advanceIter resolve has_vc g (n + 1) gs =
        advance1 resolve has_vc g (advanceIter resolve has_vc g n gs) := by
      simp [advanceIter, Function.iterate_succ_apply']
    have hstep := loop_single_song_step resolve has_vc g
      (advanceIter resolve has_vc g n gs) s ih.1 ih.2.1
    rw [hit]
    exact ⟨hstep.1, hstep.2.1, fun _ => hstep.2.2⟩

/-- C1: with loop enabled and a persisted queue holding exactly one song,
every one of `N` successive invocations of the advance routine sets that
same song as now-playing, and after each of them the persisted queue is
exactly `[s]` — length 1, never 0, never 2.  The resolver oracle and the
voice-client presence are arbitrary: the locked section re-appends the
popped song before resolution is even attempted. -/
theorem loop_single_song_invariant (resolve : JValue → Bool) (has_vc : Bool) (g : String)
    (gs : GuildState) (s : JValue) (N : Nat)
    (hq : load_queue gs.store g = [s])
    (hl : (load_guild_settings gs.store g).is_looping = true) :
    (∀ k, k ≤ N → load_queue (advanceIter resolve has_vc g k gs).store g = [s]) ∧
    (∀ k, 1 ≤ k → k ≤ N → (advanceIter resolve has_vc g k gs).now_playing = some s) := by
  have h := loop_single_song_iter resolve has_vc g gs s hq hl
  exact ⟨fun k _ => (h k).1, fun k hk _ => (h k).2.2 hk⟩

/-- A concrete song dict. -/
def songX : JValue := .obj [("title", .str ("x")), ("requester", .str ("u"))]

/-- A concrete state: guild `"g"` has the single-song queue `[songX]` and
loop enabled. -/
def loopState : GuildState :=
  ⟨save_guild_settings (save_queue emptyStore ("g") [songX]) ("g") 1 true none none, none⟩

/-- Witness for C1: three successive advances on the concrete loop state
keep the queue at `[songX]` and set `songX` as now-playing. -/
theorem loop_single_song_invariant_witness :
    load_queue loopState.store ("g") = [songX] ∧
    (load_guild_settings loopState.store ("g")).is_looping = true ∧
    load_queue (advanceIter (fun _ => true) true ("g") 3 loopState).store ("g") = [songX] ∧
    (advanceIter (fun _ => true) true ("g") 3 loopState).now_playing = some songX := by
  have hq : load_queue loopState.store ("g") = [songX] := by
    simp [loopState, load_queue_save_settings, load_save_queue_same]
  have hl : (load_guild_settings loopState.store ("g")).is_looping = true := by
    simp [loopState, load_save_settings_same]
  have h := loop_single_song_invariant (fun _ => true) true ("g") loopState songX 3 hq hl
  exact ⟨hq, hl, h.1 3 le_rfl, h.2 3 (by omega) le_rfl⟩

/-! Claim about resolution-failure handling. -/

theorem noloop_step_cons (resolve : JValue → Bool) (has_vc : Bool) (g : String)
    (gs : GuildState) (s : JValue) (rest : List JValue)
    (hq : load_queue gs.store g = s :: rest)
    (hl : (load_guild_settings gs.store g).is_looping = false) :
    load_queue (play_next_step resolve has_vc g gs).1.store g = rest ∧
    (load_guild_settings (play_next_step resolve has_vc g gs).1.store g).is_looping = false ∧
    (play_next_step resolve has_vc g gs).2 =
      (if !has_vc then .noVoice else if resolve s then .playing s else .retry) := by
  simp only [play_next_step, pop_next_song, hq, hl, if_false, Bool.false_eq_true,
    set_now_playing, load_settings_save_queue, load_save_queue_same,
    load_queue_save_settings, load_save_settings_same]
  exact ⟨trivial, trivial, trivial⟩

theorem step_empty_queue (resolve : JValue → Bool) (has_vc : Bool) (g : String)
    (gs : GuildState)
    (hq : load_queue gs.store g = []) :
    (play_next_step resolve has_vc g gs).2 = .idle ∧
    load_queue (play_next_step resolve has_vc g gs).1.store g = [] := by
  simp only [play_next_step, pop_next_song, hq, set_now_playing,
    load_queue_save_settings]
  exact ⟨trivial, trivial⟩

theorem play_until_retry_step (resolve : JValue → Bool) (has_vc : Bool) (g : String)
    (fuel : Nat) (gs : GuildState)
    (h : (play_next_step resolve has_vc g gs).2 = .retry) :
    play_until resolve has_vc g (fuel + 1) gs =
      play_until resolve has_vc g fuel (play_next_step resolve has_vc g gs).1 := by
  rcases hP : play_next_step resolve has_vc g gs with ⟨gs2, o⟩
  rw [hP] at h
  simp only at h
  subst h
  simp only [play_until, hP]

theorem play_until_done_step (resolve : JValue → Bool) (has_vc : Bool) (g : String)
    (fuel : Nat) (gs : GuildState)
    (h : (play_next_step resolve has_vc g gs).2 ≠ .retry) :
    play_until resolve has_vc g (fuel + 1) gs = play_next_step resolve has_vc g gs := by
  rcases hP : play_next_step resolve has_vc g gs with ⟨gs2, o⟩
  rw [hP] at h
  simp only at h
  cases o with
  | retry => exact absurd rfl h
  | idle => simp only [play_until, hP]
  | noVoice => simp only [play_until, hP]
  | playing s => simp only [play_until, hP]

/-- C3 (amended): with loop disabled, a song whose stream resolution fails
is discarded and the advance routine immediately retries with the next
queue item; the retry chain stops once the queue is exhausted, within
queue-length plus one invocations.  Concretely: the chain ends by playing
the first song the resolver accepts, and the persisted queue is what
followed it; when the resolver fails on every queued song the chain ends
`idle` with an empty queue — no infinite tight retry loop.  (With loop
enabled the popped song is re-appended at pop time and is not discarded;
see the counterexample.) -/
theorem noloop_failure_drops_until_exhausted (resolve : JValue → Bool) (g : String)
    (q : List JValue) (gs : GuildState)
    (hq : load_queue gs.store g = q)
    (hl : (load_guild_settings gs.store g).is_looping = false) :
    (play_until resolve true g (q.length + 1) gs).2 =
      (match q.dropWhile (fun x => !resolve x) with
       | [] => AdvanceOutcome.idle
       | s :: _ => AdvanceOutcome.playing s) ∧
    load_queue (play_until resolve true g (q.length + 1) gs).1.store g =
      (q.dropWhile (fun x => !resolve x)).tail := by
  induction q generalizing gs with
  | nil =>
    have h := step_empty_queue resolve true g gs hq
    have hun := play_until_done_step resolve true g 0 gs (by rw [h.1]; intro hc; cases hc)
    simp only [List.length_nil, List.dropWhile_nil, List.tail_nil, hun]
    exact ⟨h.1, h.2⟩
  | cons s rest ih =>
    have hstep := noloop_step_cons resolve true g gs s rest hq hl
    by_cases hr : resolve s
    · have h2 : (play_next_step resolve true g gs).2 = .playing s := by
        simpa [hr] using hstep.2.2
      have hun := play_until_done_step resolve true g (rest.length + 1) gs
        (by rw [h2]; intro hc; cases hc)
      simp only [List.length_cons, List.dropWhile_cons, hr, Bool.not_true,
        Bool.false_eq_true, if_false, List.tail_cons, hun]
      exact ⟨h2, hstep.1⟩
    · have h2 : (play_next_step resolve true g gs).2 = .retry := by
        simpa [hr] using hstep.2.2
      have hun := play_until_retry_step resolve true g (rest.length + 1) gs h2
      have hrec := ih (play_next_step resolve true g gs).1 hstep.1 hstep.2.1
      simp only [List.length_cons, List.dropWhile_cons, hr, Bool.not_false, if_true, hun]
      exact hrec

/-- A concrete song the resolver will reject. -/
def songA : JValue := .str ("a")

/-- A concrete song the resolver will accept. -/
def songB : JValue := .str ("b")

/-- A concrete resolver: only `songB` resolves. -/
def resolveB : JValue → Bool
  | .str t => t == "b"
  | _ => false

/-- A concrete state: guild `"g"` has queue `[songA, songB]` and loop
disabled. -/
def noloopState : GuildState :=
  ⟨save_guild_settings (save_queue emptyStore ("g") [songA, songB]) ("g") 1 false none none, none⟩

/-- Witness for C3 (amended): on the two-song queue whose head fails to
resolve, the retry chain drops the head, plays the second song and leaves
an empty queue. -/
theorem noloop_failure_drops_witness :
    load_queue noloopState.store ("g") = [songA, songB] ∧
    (load_guild_settings noloopState.store ("g")).is_looping = false ∧
    (play_until resolveB true ("g") 3 noloopState).2 = .playing songB ∧
    load_queue (play_until resolveB true ("g") 3 noloopState).1.store ("g") = [] := by
  have hq : load_queue noloopState.store ("g") = [songA, songB] := by
    simp [noloopState, load_queue_save_settings, load_save_queue_same]
  have hl : (load_guild_settings noloopState.store ("g")).is_looping = false := by
    simp [noloopState, load_save_settings_same]
  have h := noloop_failure_drops_until_exhausted resolveB ("g") [songA, songB] noloopState hq hl
  refine ⟨hq, hl, ?_, ?_⟩
  · simpa [List.dropWhile, resolveB, songA, songB] using h.1
  · simpa [List.dropWhile, resolveB, songA, songB] using h.2

/-- Counterexample to C3 as stated: with loop enabled (the claim quantifies
over every guild, loop state included), an advance whose resolution fails
leaves the failed song in the persisted queue — it was re-appended at pop
time, not discarded — and the retry chain does not stop although the queue
held a single song: after 10 invocations with an always-failing resolver
it is still retrying. -/
theorem loop_failed_song_not_discarded :
    (play_next_step (fun _ => false) true ("g") loopState).2 = .retry ∧
    load_queue (play_next_step (fun _ => false) true ("g") loopState).1.store ("g") = [songX] ∧
    (play_until (fun _ => false) true ("g") 10 loopState).2 = .retry := by
  refine ⟨?_, ?_, ?_⟩ <;> rfl

/-! Claim about title normalization. -/

/-- C6: `clean_song_title` at the specification's example input.  The code
removes the parenthesised official annotation and the word "lyrics", but
leaves the emptied bracket pair behind: the result is `"Song Title []"`,
not `"Song Title"` — the bracketed lyrics annotation is not removed
entirely, although the function's own docstring lists `[lyrics]` among the
removed noise. -/
theorem clean_song_title_spec_example :
    clean_song_title ("Song Title (Official Video) [Lyrics]") = "Song Title []" ∧
    clean_song_title ("Song Title (Official Video) [Lyrics]") ≠ "Song Title" := by
  exact ⟨by rfl, by decide⟩

/-! Claim about rejection of album pages in the lyrics pipeline. -/

theorem foldl_max_mem (score : GeniusHit → Int) :
    ∀ (l : List GeniusHit) (a : GeniusHit),
      l.foldl (fun best x => if score x > score best then x else best) a ∈ a :: l := by
  intro l
  induction l with
  | nil => intro a; simp
  | cons b t ih =>
    intro a
    simp only [List.foldl_cons]
    by_cases hc : score b > score a
    · simp only [hc, if_true]
      have h2 := ih b
      simp only [List.mem_cons] at h2 ⊢
      tauto
    · simp only [hc, if_false]
      have h2 := ih a
      simp only [List.mem_cons] at h2 ⊢
      tauto

theorem pyMax_mem (score : GeniusHit → Int) (l : List GeniusHit) (h : GeniusHit)
    (hm : pyMax score l = some h) : h ∈ l := by
  cases l with
  | nil => cases hm
  | cons a t =>
    simp only [pyMax, Option.some.injEq] at hm
    subst hm
    exact foldl_max_mem score t a

/-- C7 (amended): the non-song filter runs before scoring, so whenever at
least one search hit survives it, the candidate selected by
`_select_best_genius_result` — the first page the pipeline fetches — never
has `/albums/` in its URL.  (When every hit is filtered out the source
falls back to the unfiltered list, and the later ranked-fallback loops of
`get_lyrics_from_genius` never apply the filter at all, so an `/albums/`
page can then be fetched and extracted; see the counterexample.) -/
theorem surviving_filter_blocks_albums (hits : List GeniusHit) (artist title : String)
    (h : GeniusHit) (r : GeniusResult)
    (hmem : h ∈ hits)
    (hok : looks_like_non_song h.result.url h.result.title = false)
    (hsel : select_best_genius_result hits artist title = some r) :
    containsSeq (("/albums/").toList) (pyLower r.url) = false := by
  have hne : hits.isEmpty = false := by
    cases hits
    · cases hmem
    · rfl
  unfold select_best_genius_result at hsel
  rw [hne] at hsel
  simp only [Bool.false_eq_true, if_false] at hsel
  have hhc : h ∈ hits.filter (fun h2 => !looks_like_non_song h2.result.url h2.result.title) :=
    List.mem_filter.mpr ⟨hmem, by simp [hok]⟩
  have hcne :
      (hits.filter (fun h2 => !looks_like_non_song h2.result.url h2.result.title)).isEmpty
        = false := by
    cases hfe : hits.filter (fun h2 => !looks_like_non_song h2.result.url h2.result.title)
    · rw [hfe] at hhc; cases hhc
    · rfl
  rw [hcne] at hsel
  simp only [Bool.false_eq_true, if_false, Option.map_eq_some'] at hsel
  obtain ⟨b, hb, hbr⟩ := hsel
  have hbmem := pyMax_mem _ _ _ hb
  have hbok := (List.mem_filter.mp hbmem).2
  simp only [Bool.not_eq_true'] at hbok
  subst hbr
  unfold looks_like_non_song at hbok
  simp only [Bool.or_eq_false_iff] at hbok
  tauto

/-- A Genius search hit whose URL is an album page. -/
def albumsHit : GeniusHit :=
  ⟨"song", ⟨"https://genius.com/albums/Artist/Thing", "Thing", "Artist"⟩⟩

/-- Counterexample to C7 as stated: when every search hit is marked
non-song, `_select_best_genius_result` falls back to the unfiltered hit
list, so with a single `/albums/` hit that hit is selected, its page is
fetched and extracted, and the pipeline returns its text (the page oracle
here returns the fetched URL as the extracted text, so the returned value
names the page that was fetched) — the `/albums/` candidate was not
rejected and nothing fell through. -/
theorem albums_candidate_fetched :
    looks_like_non_song albumsHit.result.url albumsHit.result.title = true ∧
    get_lyrics_from_genius (fun u => some u) ("Artist - Thing") [albumsHit] =
      some ("https://genius.com/albums/Artist/Thing") := by
  exact ⟨by rfl, by rfl⟩

/-- A Genius search hit that survives the non-song filter. -/
def goodHit : GeniusHit :=
  ⟨"song", ⟨"https://genius.com/artist-thing-lyrics", "Thing", "Artist"⟩⟩

/-- Witness for C7 (amended): with one surviving hit next to the album
hit, the selected candidate is the surviving one and its URL has no
`/albums/`. -/
theorem surviving_filter_blocks_albums_witness :
    goodHit ∈ [goodHit, albumsHit] ∧
    looks_like_non_song goodHit.result.url goodHit.result.title = false ∧
    select_best_genius_result [goodHit, albumsHit] ("Artist") ("Thing") = some goodHit.result ∧
    containsSeq (("/albums/").toList) (pyLower goodHit.result.url) = false := by
  refine ⟨by simp, by rfl, by rfl, ?_⟩
  exact surviving_filter_blocks_albums [goodHit, albumsHit] ("Artist") "Thing" goodHit
    goodHit.result (by simp) (by rfl) (by rfl)

/-! Claim about the per-guild advance lock. -/

theorem task_step_cases (g : String) (sh : SharedState) (t : AdvTask)
    (sh2 : SharedState) (t2 : AdvTask)
    (h : task_step g sh t = some (sh2, t2)) :
    (t.pc = 0 ∧ sh.lockHeld = false ∧ sh2.lockHeld = true ∧ sh2.pops = sh.pops ∧ t2.pc = 1) ∨
    (t.pc = 1 ∧ sh2.lockHeld = sh.lockHeld ∧ sh2.pops = sh.pops ∧ t2.pc = 2) ∨
    (t.pc = 2 ∧ sh2.lockHeld = sh.lockHeld ∧ sh2.pops = sh.pops ∧ t2.pc = 3) ∨
    (t.pc = 2 ∧ sh2.lockHeld = sh.lockHeld ∧ sh2.pops = sh.pops + 1 ∧ t2.pc = 4) ∨
    (t.pc = 3 ∧ sh2.lockHeld = sh.lockHeld ∧ sh2.pops = sh.pops ∧ t2.pc = 6) ∨
    (t.pc = 4 ∧ sh2.lockHeld = sh.lockHeld ∧ sh2.pops = sh.pops ∧ t2.pc = 5) ∨
    (t.pc = 5 ∧ sh2.lockHeld = sh.lockHeld ∧ sh2.pops = sh.pops ∧ t2.pc = 6) ∨
    (t.pc = 6 ∧ sh2.lockHeld = false ∧ sh2.pops = sh.pops ∧ t2.pc = 7) := by
  unfold task_step at h
  split_ifs at h with h0 hlk h1 h2 h3 h4 hloop h5 h6
  · -- acquire succeeded
    simp only [Option.some.injEq, Prod.mk.injEq] at h
    obtain ⟨rfl, rfl⟩ := h
    exact Or.inl ⟨h0, by simpa using hlk, rfl, rfl, rfl⟩
  · -- read the loop flag
    simp only [Option.some.injEq, Prod.mk.injEq] at h
    obtain ⟨rfl, rfl⟩ := h
    exact Or.inr (Or.inl ⟨h1, rfl, rfl, rfl⟩)
  · -- pop
    rcases hpop : pop_next_song sh.store g with ⟨os, st2⟩
    rw [hpop] at h
    cases os with
    | none =>
      simp only [Option.some.injEq, Prod.mk.injEq] at h
      obtain ⟨rfl, rfl⟩ := h
      exact Or.inr (Or.inr (Or.inl ⟨h2, rfl, rfl, rfl⟩))
    | some s =>
      simp only [Option.some.injEq, Prod.mk.injEq] at h
      obtain ⟨rfl, rfl⟩ := h
      exact Or.inr (Or.inr (Or.inr (Or.inl ⟨h2, rfl, rfl, rfl⟩)))
  · -- empty-queue branch
    simp only [Option.some.injEq, Prod.mk.injEq] at h
    obtain ⟨rfl, rfl⟩ := h
    exact Or.inr (Or.inr (Or.inr (Or.inr (Or.inl ⟨h3, rfl, rfl, rfl⟩))))
  · -- loop re-append
    rcases hsong : t.song with _ | s <;> rw [hsong] at h <;>
      simp only [Option.some.injEq, Prod.mk.injEq] at h
    · obtain ⟨rfl, rfl⟩ := h
      exact Or.inr (Or.inr (Or.inr (Or.inr (Or.inr (Or.inl ⟨h4, rfl, rfl, rfl⟩)))))
    · obtain ⟨rfl, rfl⟩ := h
      exact Or.inr (Or.inr (Or.inr (Or.inr (Or.inr (Or.inl ⟨h4, rfl, rfl, rfl⟩)))))
  · -- loop disabled: no re-append
    simp only [Option.some.injEq, Prod.mk.injEq] at h
    obtain ⟨rfl, rfl⟩ := h
    exact Or.inr (Or.inr (Or.inr (Or.inr (Or.inr (Or.inl ⟨h4, rfl, rfl, rfl⟩)))))
  · -- set now playing
    simp only [Option.some.injEq, Prod.mk.injEq] at h
    obtain ⟨rfl, rfl⟩ := h
    exact Or.inr (Or.inr (Or.inr (Or.inr (Or.inr (Or.inr (Or.inl ⟨h5, rfl, rfl, rfl⟩))))))
  · -- release
    simp only [Option.some.injEq, Prod.mk.injEq] at h
    obtain ⟨rfl, rfl⟩ := h
    exact Or.inr (Or.inr (Or.inr (Or.inr (Or.inr (Or.inr (Or.inr ⟨h6, rfl, rfl, rfl⟩))))))

/-- The inductive invariant of the two-task lock model: program counters
bounded, the lock is held exactly while some task is in the locked section,
never both tasks at once, and the ghost pop counter is bounded by the
number of tasks past their pop step. -/
def GoodConf (c : SchedConf) : Prop :=
  c.t1.pc ≤ 7 ∧ c.t2.pc ≤ 7 ∧
  (c.shared.lockHeld = true ↔ (inCrit c.t1 ∨ inCrit c.t2)) ∧
  ¬(inCrit c.t1 ∧ inCrit c.t2) ∧
  c.shared.pops ≤ (if 3 ≤ c.t1.pc then 1 else 0) + (if 3 ≤ c.t2.pc then 1 else 0)

theorem task_step_preserves (g : String) (sh sh2 : SharedState) (t t2 other : AdvTask)
    (h : task_step g sh t = some (sh2, t2))
    (hiff : sh.lockHeld = true ↔ (inCrit t ∨ inCrit other))
    (hmx : ¬(inCrit t ∧ inCrit other))
    (hpp : sh.pops ≤ (if 3 ≤ t.pc then 1 else 0) + (if 3 ≤ other.pc then 1 else 0)) :
    t2.pc ≤ 7 ∧
    (sh2.lockHeld = true ↔ (inCrit t2 ∨ inCrit other)) ∧
    ¬(inCrit t2 ∧ inCrit other) ∧
    sh2.pops ≤ (if 3 ≤ t2.pc then 1 else 0) + (if 3 ≤ other.pc then 1 else 0) := by
  rcases task_step_cases g sh t sh2 t2 h with
    ⟨hpc, hlf, hlt, hpops, hpc2⟩ | ⟨hpc, hlk, hpops, hpc2⟩ | ⟨hpc, hlk, hpops, hpc2⟩ |
    ⟨hpc, hlk, hpops, hpc2⟩ | ⟨hpc, hlk, hpops, hpc2⟩ | ⟨hpc, hlk, hpops, hpc2⟩ |
    ⟨hpc, hlk, hpops, hpc2⟩ | ⟨hpc, hlf, hpops, hpc2⟩
  · -- acquire: lock was free, so neither task was in the locked section
    rw [hlf] at hiff
    simp only [Bool.false_eq_true, false_iff] at hiff
    have hno : ¬inCrit other := fun hco => hiff (Or.inr hco)
    refine ⟨by omega, ?_, ?_, ?_⟩
    · rw [hlt]
      simp only [true_iff]
      exact Or.inl (by simp only [inCrit]; omega)
    · exact fun hc => hno hc.2
    · split_ifs at hpp ⊢ <;> omega
  all_goals {
    first
    | -- steps inside the locked section (pc 1..5) and the release (pc 6):
      -- the running task is in the section, so the other one is not
      (have hcrit : inCrit t := by simp only [inCrit]; omega
       have hno : ¬inCrit other := fun hco => hmx ⟨hcrit, hco⟩
       have hl : sh.lockHeld = true := hiff.mpr (Or.inl hcrit)
       refine ⟨by omega, ?_, ?_, ?_⟩
       · first
         | (rw [hlk, hl]
            simp only [true_iff]
            exact Or.inl (by simp only [inCrit]; omega))
         | (rw [hlf]
            simp only [Bool.false_eq_true, false_iff]
            rintro (hc | hc)
            · simp only [inCrit] at hc; omega
            · exact hno hc)
       · rintro ⟨hc, hco⟩
         exact hno hco
       · split_ifs at hpp ⊢ <;> omega)
  }

theorem sched_step_preserves_good (g : String) (c c2 : SchedConf)
    (hstep : SchedStep g c c2) (hg : GoodConf c) : GoodConf c2 := by
  obtain ⟨hb1, hb2, hiff, hmx, hpp⟩ := hg
  cases hstep with
  | left sh t h =>
    have h2 := task_step_preserves g c.shared sh c.t1 t c.t2 h hiff hmx hpp
    exact ⟨h2.1, hb2, h2.2.1, h2.2.2.1, h2.2.2.2⟩
  | right sh t h =>
    have hiff2 : c.shared.lockHeld = true ↔ (inCrit c.t2 ∨ inCrit c.t1) :=
      hiff.trans or_comm
    have hmx2 : ¬(inCrit c.t2 ∧ inCrit c.t1) := fun hc => hmx ⟨hc.2, hc.1⟩
    have hpp2 : c.shared.pops ≤
        (if 3 ≤ c.t2.pc then 1 else 0) + (if 3 ≤ c.t1.pc then 1 else 0) := by omega
    have h2 := task_step_preserves g c.shared sh c.t2 t c.t1 h hiff2 hmx2 hpp2
    refine ⟨hb1, h2.1, (h2.2.1).trans or_comm, fun hc => h2.2.2.1 ⟨hc.2, hc.1⟩, ?_⟩
    show sh.pops ≤ (if 3 ≤ c.t1.pc then 1 else 0) + (if 3 ≤ t.pc then 1 else 0)
    have h3 := h2.2.2.2
    omega

/-- The initial configuration: both advance tasks freshly triggered, lock
free, ghost pop counter zero. -/
def initConf (st : Store) (np : Option JValue) : SchedConf :=
  ⟨⟨st, np, false, 0⟩, AdvTask.start, AdvTask.start⟩

theorem good_initConf (st : Store) (np : Option JValue) : GoodConf (initConf st np) := by
  unfold GoodConf initConf AdvTask.start inCrit
  simp only []
  refine ⟨by omega, by omega, ?_, by omega, by omega⟩
  simp

/-- C8 (amended): every advance's queue pop executes under the guild's
advance lock, so in every configuration reachable from two concurrently
triggered advance routines the locked sections are mutually exclusive —
the two tasks are never both inside the pop/re-append/now-playing section
— and each advance pops at most one song, so at most two pops ever occur.
The lock serializes the two advances; it does not make the second one a
no-op, so "exactly one pop" for two triggered advances is not guaranteed
(see the counterexample). -/
theorem advance_lock_mutual_exclusion (g : String) (st : Store) (np : Option JValue)
    (c : SchedConf)
    (hreach : Relation.ReflTransGen (SchedStep g) (initConf st np) c) :
    ¬(inCrit c.t1 ∧ inCrit c.t2) ∧ c.shared.pops ≤ 2 := by
  have hg : GoodConf c := by
    induction hreach with
    | refl => exact good_initConf st np
    | tail hsteps hstep ih => exact sched_step_preserves_good g _ _ hstep ih
  refine ⟨hg.2.2.2.1, ?_⟩
  have := hg.2.2.2.2
  split_ifs at this <;> omega

/-- Witness for C8 (amended): the initial configuration is reachable
(reflexively) and satisfies the conclusion. -/
theorem advance_lock_mutual_exclusion_witness :
    ¬(inCrit (initConf emptyStore none).t1 ∧ inCrit (initConf emptyStore none).t2) ∧
    (initConf emptyStore none).shared.pops ≤ 2 :=
  advance_lock_mutual_exclusion ("g") emptyStore none (initConf emptyStore none)
    Relation.ReflTransGen.refl

/-- The initial configuration of the double-advance counterexample: guild
`"g"` has two queued songs and two freshly triggered advance tasks. -/
def twoSongConf : SchedConf :=
  initConf (save_queue emptyStore ("g") [songA, songB]) none

/-- Counterexample to C8 as stated: when a skip and the completion
callback each trigger their own advance routine for the same guild, the
per-guild lock serializes them but does not collapse them into one pop.
Running the first advance's locked section to completion and then the
second's — one legal interleaving of the model — performs two queue pops,
not one, and consumes both queued songs. -/
theorem concurrent_advances_pop_twice :
    (sched_run ("g") [true, true, true, true, true, true,
        false, false, false, false, false, false] twoSongConf).shared.pops = 2 ∧
    load_queue (sched_run ("g") [true, true, true, true, true, true,
        false, false, false, false, false, false] twoSongConf).shared.store ("g") = [] := by
  exact ⟨by rfl, by rfl⟩

end Tansen
